import Mathlib

/-!
Verification of the `huer` Philips Hue client library (bridge discovery and
button-press authentication) against its natural-language specification.

The development shallowly embeds the four Rust source files:

* `bridge.rs`: the `Bridge` identity (`host`, `id`, `port`), the remote
  discovery record, and `Bridge::discover` (a `HashSet`-merged, fully
  deduplicated result set, here a `Finset`).
* `error.rs`: the error taxonomy `Error` / `AuthenticationError`.
* `authentication.rs`: the `Response` wire enum and `Authenticator::request`,
  a poll loop raced against a deadline timer via `tokio::select!`.

Timing model for `request`: logical wall-clock time is a `Nat`. The bridge's
behaviour is a function from the attempt index to the reply of that attempt
(`Except String Response`, where `.error` models a transport/serde failure
propagated by `?`). Attempt `i` occupies one network round trip of `rtt i`
time units; a reply that would arrive strictly after `deadline` is preempted
by the `sleep_until(deadline)` branch of the `select!`, as is a `sleep`
(poll-interval wait) that would finish strictly after `deadline`; ties are
resolved in favour of the loop branch. The recursion is fueled; `none` means
the fuel ran out before either racer finished.
-/

namespace Huer

/-- The `url::Host` of a bridge, as deserialized by `deserialize_host` in
`bridge.rs` (a domain name or an IP literal); modelled as an opaque sum with
decidable equality, which is all the library uses of it besides rendering. -/
inductive Host
  | domain (s : String)
  | ipv4 (addr : Nat)
  | ipv6 (addr : Nat)
deriving DecidableEq

/-- Rendering of a `Host` into the authority part of a URL (`Display` on
`url::Host`, used by `format!("https://{}/api", bridge.host())`). -/
def Host.render : Host → String
  | .domain s => s
  | .ipv4 addr => toString addr
  | .ipv6 addr => toString addr

/-- The `Bridge` struct of `bridge.rs`: immutable identity of one discovered
bridge. Equality is the derived `PartialEq`/`Eq`: all three fields. -/
structure Bridge where
  host : Host
  id : String
  port : Nat
deriving DecidableEq

/-- One record of the remote discovery endpoint's JSON answer
(`discover_remote::Response` in `bridge.rs`): `internalipaddress` already
parsed into a `Host`, plus `id` and `port`. -/
structure DiscoveryRecord where
  ip : Host
  id : String
  port : Nat
deriving DecidableEq

/-- The `From<discover_remote::Response> for Bridge` impl in `bridge.rs`:
field-by-field transfer, no normalisation. -/
def Bridge.fromRecord (r : DiscoveryRecord) : Bridge :=
  { host := r.ip, id := r.id, port := r.port }

/-- The `Bridge::discover` function of `bridge.rs`. Its one enabled strategy
fetches the remote discovery endpoint; the `?` operator propagates any
transport failure of that fetch, so the argument is the outcome of the fetch:
either a transport error or the parsed list of records. On success every
record is mapped through `From<Response> for Bridge` and collected into a
`HashSet` (here a `Finset`, dedup by full derived equality). -/
def Bridge.discover (fetched : Except String (List DiscoveryRecord)) :
    Except String (Finset Bridge) :=
  match fetched with
  | .error e => .error e
  | .ok records => .ok ((records.map Bridge.fromRecord).toFinset)

/-- The `secrecy::SecretString` wrapper used for credentials.
Modelled from the spec: the `secrecy` crate is an external collaborator (not
part of `src/`); the spec requires a redaction-aware wrapper whose default
debug formatting does not leak the secret while programmatic comparison stays
possible through explicit exposure. -/
structure SecretString where
  exposeSecret : String
deriving DecidableEq

/-- Modelled from the spec: the redacted `Debug` rendering of a
`secrecy::SecretString` — a constant placeholder, independent of the value. -/
def SecretString.debugFormat (_s : SecretString) : String :=
  "SecretString([REDACTED])"

/-- The `Authenticator` struct of `authentication.rs`: the credentials
returned by a successful run of the polling protocol. -/
structure Authenticator where
  username : SecretString
  clientkey : SecretString
deriving DecidableEq

/-- The derived `Debug` rendering of `Authenticator`: the struct name and the
debug rendering of each `SecretString` field. -/
def Authenticator.debugFormat (a : Authenticator) : String :=
  "Authenticator \x7b username: " ++ a.username.debugFormat ++
    ", clientkey: " ++ a.clientkey.debugFormat ++ " \x7d"

/-- The `success` payload of a bridge reply (`Success` in
`authentication.rs`). -/
structure Success where
  username : SecretString
  clientkey : SecretString
deriving DecidableEq

/-- The `error` payload of a bridge reply (`Failure` in `authentication.rs`);
`typ` is the numeric error code (`type` on the wire, a `u16`). -/
structure Failure where
  typ : Nat
deriving DecidableEq

/-- The externally tagged `Response` enum of `authentication.rs`: one bridge
reply is either a `success` record or an `error` record. -/
inductive Response
  | ok (s : Success)
  | err (f : Failure)
deriving DecidableEq

/-- The `AuthenticationError` enum of `error.rs`. -/
inductive AuthenticationError
  | timedOut
  | other (code : Nat)
deriving DecidableEq

/-- The `Error` enum of `error.rs`: either a transport (`reqwest`) failure,
carried here as its message, or an authentication failure. -/
inductive Error
  | http (e : String)
  | authentication (e : AuthenticationError)
deriving DecidableEq

/-- Observable outcome of one run of the poll-loop/deadline race inside
`Authenticator::request`: the returned `Result`, the number of POSTs issued,
the number of completed poll-interval waits, and the logical time at which
`request` returned. -/
structure RequestOutcome where
  result : Except Error Authenticator
  posts : Nat
  waits : Nat
  endTime : Nat

/-- The poll loop of `Authenticator::request` raced against
`sleep_until(deadline)`, in the timing model described in the module header.
Arguments after the fuel: current logical time `t`, current attempt index
`i`, POSTs issued so far, completed waits so far. Each unfueled branch
mirrors one exit of the Rust `select!`/`loop`: preemption by the deadline
timer during the network await, transport failure propagated by `?`, success
return, non-101 terminal error, preemption during the `sleep(poll_rate)`,
and otherwise the next iteration. -/
def runRequest (replies : Nat → Except String Response) (rtt : Nat → Nat)
    (pollRate deadline : Nat) :
    Nat → Nat → Nat → Nat → Nat → Option RequestOutcome
  | 0, _, _, _, _ => none
  | fuel + 1, t, i, posts, waits =>
    if deadline < t + rtt i then
      some ⟨.error (.authentication .timedOut), posts + 1, waits, deadline⟩
    else
      match replies i with
      | .error e => some ⟨.error (.http e), posts + 1, waits, t + rtt i⟩
      | .ok (.ok s) =>
          some ⟨.ok ⟨s.username, s.clientkey⟩, posts + 1, waits, t + rtt i⟩
      | .ok (.err f) =>
          if f.typ ≠ 101 then
            some ⟨.error (.authentication (.other f.typ)), posts + 1, waits,
              t + rtt i⟩
          else if deadline < t + rtt i + pollRate then
            some ⟨.error (.authentication .timedOut), posts + 1, waits,
              deadline⟩
          else
            runRequest replies rtt pollRate deadline fuel
              (t + rtt i + pollRate) (i + 1) (posts + 1) (waits + 1)

/-- Total round-trip time of the `n` attempts starting at attempt `i`. -/
def rttSum (rtt : Nat → Nat) : Nat → Nat → Nat
  | _, 0 => 0
  | i, n + 1 => rtt i + rttSum rtt (i + 1) n

/-- The URL `Authenticator::request` POSTs to:
`https://{bridge.host()}/api`, built from the bridge's host alone. -/
def requestUrl (bridge : Bridge) : String :=
  "https://" ++ bridge.host.render ++ "/api"

/-- JSON values, the common ground between the bridge's wire format and the
serde deserialization in `authentication.rs`. Numbers are restricted to
naturals, which covers every field the library consumes (`type: u16`,
`port: u16`). -/
inductive Json
  | null
  | bool (b : Bool)
  | num (n : Nat)
  | str (s : String)
  | arr (elems : List Json)
  | obj (fields : List (String × Json))

/-- First value bound to `key` in a JSON object's field list. -/
def Json.lookup (key : String) : List (String × Json) → Option Json
  | [] => none
  | (k, v) :: rest => if k = key then some v else Json.lookup key rest

/-- Deserialization of a JSON string into a `SecretString` (serde's
`Deserialize` for `secrecy::SecretString`: any JSON string). -/
def decodeSecretString : Json → Option SecretString
  | .str s => some ⟨s⟩
  | _ => none

/-- Deserialization of a JSON number into a `u16` (range-checked). -/
def decodeU16 : Json → Option Nat
  | .num n => if n < 65536 then some n else none
  | _ => none

/-- Deserialization of the `Success` struct of `authentication.rs`: a JSON
object with string fields `username` and `clientkey`; unknown extra fields
are ignored (serde's default for structs). -/
def decodeSuccess : Json → Option Success
  | .obj fields => do
      let u ← Json.lookup "username" fields >>= decodeSecretString
      let k ← Json.lookup "clientkey" fields >>= decodeSecretString
      pure ⟨u, k⟩
  | _ => none

/-- Deserialization of the `Failure` struct of `authentication.rs`: a JSON
object whose `type` field is a `u16`; the bridge's `address` and
`description` fields are ignored. -/
def decodeFailure : Json → Option Failure
  | .obj fields => do
      let t ← Json.lookup "type" fields >>= decodeU16
      pure ⟨t⟩
  | _ => none

/-- Deserialization of the externally tagged `Response` enum of
`authentication.rs`: a JSON object with exactly one entry, whose key names
the variant (`success` or `error`) and whose value is the payload. -/
def decodeResponse : Json → Option Response
  | .obj [(tag, payload)] =>
      if tag = "success" then (decodeSuccess payload).map .ok
      else if tag = "error" then (decodeFailure payload).map .err
      else none
  | _ => none

/-- Deserialization of the whole response body, `[Response; 1]` in
`authentication.rs`: a JSON array with exactly one element. -/
def decodeResponseBody : Json → Option Response
  | .arr [x] => decodeResponse x
  | _ => none

/-- Everything observable about one call of `Authenticator::request` in the
model: the URL POSTed to, the JSON payload POSTed, and the outcome of the
poll-loop/deadline race. The URL comes from `bridge.host()` alone and the
payload from `device_type` alone, mirroring lines 99-106 of
`authentication.rs`. -/
structure RequestCall where
  url : String
  payload : Json
  outcome : Option RequestOutcome

/-- The `Authenticator::request` function of `authentication.rs` in the
timing model: builds the payload `{"devicetype": ..., "generateclientkey":
true}` and the URL `https://{host}/api`, then runs the poll loop raced
against the deadline from time `0`, attempt `0`, with no POSTs or waits
performed yet. -/
def Authenticator.request (bridge : Bridge) (deviceType : String)
    (replies : Nat → Except String Response) (rtt : Nat → Nat)
    (pollRate deadline fuel : Nat) : RequestCall :=
  { url := requestUrl bridge
    payload := .obj [("devicetype", .str deviceType),
      ("generateclientkey", .bool true)]
    outcome := runRequest replies rtt pollRate deadline fuel 0 0 0 0 }

/-! Helper lemmas about the poll loop. -/

/-- Main loop invariant for the success path: if the `n` attempts starting at
attempt `i` answer error code 101 and attempt `i + n` answers success, and the
whole timeline (all `n + 1` round trips plus the `n` interleaved waits) fits
within the deadline, then the race ends with exactly those credentials,
`n + 1` further POSTs, `n` further waits, and no trailing wait. -/
theorem runRequest_success_general (replies : Nat → Except String Response)
    (rtt : Nat → Nat) (p d : Nat) (u k : String) :
    ∀ n fuel t i posts waits : Nat,
      (∀ j, j < n → replies (i + j) = .ok (.err ⟨101⟩)) →
      replies (i + n) = .ok (.ok ⟨⟨u⟩, ⟨k⟩⟩) →
      t + rttSum rtt i (n + 1) + n * p ≤ d →
      n < fuel →
      runRequest replies rtt p d fuel t i posts waits =
        some ⟨.ok ⟨⟨u⟩, ⟨k⟩⟩, posts + n + 1, waits + n,
          t + rttSum rtt i (n + 1) + n * p⟩ := by
  intro n
  induction n with
  | zero =>
    intro fuel t i posts waits _h101 hs htime hfuel
    cases fuel with
    | zero => exact absurd hfuel (by omega)
    | succ f =>
      have hr : replies i = .ok (.ok ⟨⟨u⟩, ⟨k⟩⟩) := by simpa using hs
      have hsum : rttSum rtt i 1 = rtt i + 0 := rfl
      rw [hsum] at htime ⊢
      simp only [runRequest, hr]
      rw [if_neg (by omega)]
      simp
  | succ n ih =>
    intro fuel t i posts waits h101 hs htime hfuel
    cases fuel with
    | zero => exact absurd hfuel (by omega)
    | succ f =>
      have h0 : replies i = .ok (.err ⟨101⟩) := by
        simpa using h101 0 (by omega)
      have hsum : rttSum rtt i (n + 1 + 1) = rtt i + rttSum rtt (i + 1) (n + 1) :=
        rfl
      have hmul : (n + 1) * p = n * p + p := Nat.succ_mul n p
      rw [hsum, hmul] at htime
      have hrec := ih f (t + rtt i + p) (i + 1) (posts + 1) (waits + 1)
        (fun j hj => by
          have := h101 (j + 1) (by omega)
          rwa [show i + (j + 1) = i + 1 + j by omega] at this)
        (by rwa [show i + (n + 1) = i + 1 + n by omega] at hs)
        (by omega)
        (by omega)
      simp only [runRequest, h0]
      rw [if_neg (by omega)]
      rw [if_neg (by simp), if_neg (by omega), hrec]
      rw [hsum, hmul]
      simp only [Option.some.injEq, RequestOutcome.mk.injEq]
      refine ⟨trivial, by omega, by omega, by omega⟩

/-- Main loop invariant for the timeout path: if every reply carries error
code 101 and the poll interval is positive, then once the fuel covers the
deadline the race ends with `TimedOut`, returning exactly at the deadline
instant. -/
theorem runRequest_all101_timedOut (replies : Nat → Except String Response)
    (rtt : Nat → Nat) (p d : Nat)
    (h101 : ∀ j, replies j = .ok (.err ⟨101⟩)) (hp : 1 ≤ p) :
    ∀ f t i posts waits : Nat,
      d ≤ t + f * p →
      ∃ posts' waits',
        runRequest replies rtt p d (f + 1) t i posts waits =
          some ⟨.error (.authentication .timedOut), posts', waits', d⟩ := by
  intro f
  induction f with
  | zero =>
    intro t i posts waits hd
    by_cases hc : d < t + rtt i
    · exact ⟨posts + 1, waits, by simp only [runRequest]; rw [if_pos hc]⟩
    · refine ⟨posts + 1, waits, ?_⟩
      simp only [runRequest, h101 i]
      rw [if_neg hc, if_neg (by simp), if_pos (by omega)]
  | succ f ih =>
    intro t i posts waits hd
    have hmul : (f + 1) * p = f * p + p := Nat.succ_mul f p
    rw [hmul] at hd
    by_cases hc : d < t + rtt i
    · exact ⟨posts + 1, waits, by simp only [runRequest]; rw [if_pos hc]⟩
    · by_cases hc2 : d < t + rtt i + p
      · refine ⟨posts + 1, waits, ?_⟩
        simp only [runRequest, h101 i]
        rw [if_neg hc, if_neg (by simp), if_pos hc2]
      · obtain ⟨posts', waits', hrec⟩ :=
          ih (t + rtt i + p) (i + 1) (posts + 1) (waits + 1) (by omega)
        refine ⟨posts', waits', ?_⟩
        simp only [runRequest, h101 i]
        rw [if_neg hc, if_neg (by simp), if_neg hc2]
        exact hrec

/-- Every returned outcome accounts for at least one POST beyond those
already issued: the loop always POSTs before anything else can happen. -/
theorem runRequest_posts_lower (replies : Nat → Except String Response)
    (rtt : Nat → Nat) (p d : Nat) :
    ∀ fuel t i posts waits o,
      runRequest replies rtt p d fuel t i posts waits = some o →
      posts + 1 ≤ o.posts := by
  intro fuel
  induction fuel with
  | zero =>
    intro t i posts waits o h
    simp [runRequest] at h
  | succ f ih =>
    intro t i posts waits o h
    simp only [runRequest] at h
    split at h
    · simp only [Option.some.injEq] at h
      subst h
      simp
    · split at h
      · simp only [Option.some.injEq] at h
        subst h
        simp
      · simp only [Option.some.injEq] at h
        subst h
        simp
      · split at h
        · simp only [Option.some.injEq] at h
          subst h
          simp
        · split at h
          · simp only [Option.some.injEq] at h
            subst h
            simp
          · have := ih _ _ _ _ _ h
            omega

/-- Frame property of the race: the outcome is fully determined by the
replies to the POSTs it actually issues. Any bridge behaviour agreeing on
attempts `i, ..., i + (o.posts - posts) - 1` produces the identical outcome;
replies the loop never consumed — in particular any in flight or later than a
winning deadline timer — cannot influence the result. -/
theorem runRequest_frame (rtt : Nat → Nat) (p d : Nat) :
    ∀ (fuel : Nat) (r1 r2 : Nat → Except String Response)
      (t i posts waits : Nat) (o : RequestOutcome),
      runRequest r1 rtt p d fuel t i posts waits = some o →
      (∀ j, i ≤ j → j < i + (o.posts - posts) → r2 j = r1 j) →
      runRequest r2 rtt p d fuel t i posts waits = some o := by
  intro fuel
  induction fuel with
  | zero =>
    intro r1 r2 t i posts waits o h _
    simp [runRequest] at h
  | succ f ih =>
    intro r1 r2 t i posts waits o h hagree
    have hlow := runRequest_posts_lower r1 rtt p d (f + 1) t i posts waits o h
    have hri : r2 i = r1 i := hagree i le_rfl (by omega)
    by_cases hc : d < t + rtt i
    · simp only [runRequest, if_pos hc] at h ⊢
      exact h
    · cases hrep : r1 i with
      | error e =>
        rw [hrep] at hri
        simp only [runRequest, if_neg hc, hrep, hri] at h ⊢
        exact h
      | ok resp =>
        rw [hrep] at hri
        cases resp with
        | ok s =>
          simp only [runRequest, if_neg hc, hrep, hri] at h ⊢
          exact h
        | err fl =>
          by_cases h101 : fl.typ ≠ 101
          · simp only [runRequest, if_neg hc, hrep, hri, if_pos h101] at h ⊢
            exact h
          · by_cases hc2 : d < t + rtt i + p
            · simp only [runRequest, if_neg hc, hrep, hri, if_neg h101,
                if_pos hc2] at h ⊢
              exact h
            · simp only [runRequest, if_neg hc, hrep, hri, if_neg h101,
                if_neg hc2] at h ⊢
              exact ih r1 r2 _ _ _ _ o h
                (fun j hj1 hj2 => hagree j (by omega) (by omega))

/-! The claims. -/

/-- C1: if the bridge answers error code 101 on attempts `1..N-1` and the
success record on attempt `N` (`N ≥ 1`), and the `N` round trips plus the
`N − 1` interleaved poll-interval waits fit within the deadline, then
`Authenticator::request` returns credentials whose username and clientkey are
exactly those of the success record, issues exactly `N` POSTs, completes
exactly `N − 1` waits of `pollInterval` (only between consecutive attempts),
and returns at the arrival instant of the `N`-th reply — so no wait happens
before the first attempt or after the `N`-th. -/
theorem request_success_exact_polls
    (bridge : Bridge) (deviceType : String)
    (replies : Nat → Except String Response) (rtt : Nat → Nat)
    (p d fuel N : Nat) (u k : String)
    (hN : 1 ≤ N)
    (h101 : ∀ j, j < N - 1 → replies j = .ok (.err ⟨101⟩))
    (hsucc : replies (N - 1) = .ok (.ok ⟨⟨u⟩, ⟨k⟩⟩))
    (htime : rttSum rtt 0 N + (N - 1) * p ≤ d)
    (hfuel : N ≤ fuel) :
    (Authenticator.request bridge deviceType replies rtt p d fuel).outcome =
      some ⟨.ok ⟨⟨u⟩, ⟨k⟩⟩, N, N - 1, rttSum rtt 0 N + (N - 1) * p⟩ := by
  obtain ⟨n, rfl⟩ : ∃ n, N = n + 1 := ⟨N - 1, by omega⟩
  have h := runRequest_success_general replies rtt p d u k n fuel 0 0 0 0
    (fun j hj => by simpa using h101 j (by omega))
    (by simpa using hsucc)
    (by simpa using htime)
    (by omega)
  simpa [Authenticator.request] using h

/-- Witness for C1: a concrete run that answers 101 once and then succeeds on
the second attempt, with unit round trips, poll interval 3 and deadline 10. -/
theorem request_success_exact_polls_witness :
    (Authenticator.request ⟨.domain "hue.local", "001788fffe23ab42", 443⟩
        "my_app"
        (fun i => if i = 0 then .ok (.err ⟨101⟩) else .ok (.ok ⟨⟨"U"⟩, ⟨"K"⟩⟩))
        (fun _ => 1) 3 10 5).outcome =
      some ⟨.ok ⟨⟨"U"⟩, ⟨"K"⟩⟩, 2, 1, 5⟩ := by
  have h := request_success_exact_polls
    ⟨.domain "hue.local", "001788fffe23ab42", 443⟩ "my_app"
    (fun i => if i = 0 then .ok (.err ⟨101⟩) else .ok (.ok ⟨⟨"U"⟩, ⟨"K"⟩⟩))
    (fun _ => 1) 3 10 5 2 "U" "K" (by omega)
    (fun j hj => by
      have hj0 : j = 0 := by omega
      subst hj0
      rfl)
    rfl (by decide) (by omega)
  rw [h]
  rfl

/-- C2: dispatch on the bridge's error code: at any attempt whose reply
arrives within the deadline, a code other than 101 ends the run immediately
with `AuthenticationOtherError` carrying exactly that code, one further POST,
no further wait and no further iteration; code 101 leads into the next
iteration exactly one completed `pollInterval` wait later. In particular a
non-101 code on the first attempt (`i = 0`, nothing issued yet) yields the
error after exactly one POST. -/
theorem request_error_code_dispatch
    (replies : Nat → Except String Response) (rtt : Nat → Nat)
    (p d fuel t i posts waits c : Nat) :
    (replies i = .ok (.err ⟨c⟩) → c ≠ 101 → t + rtt i ≤ d →
      runRequest replies rtt p d (fuel + 1) t i posts waits =
        some ⟨.error (.authentication (.other c)), posts + 1, waits,
          t + rtt i⟩) ∧
    (replies i = .ok (.err ⟨101⟩) → t + rtt i + p ≤ d →
      runRequest replies rtt p d (fuel + 1) t i posts waits =
        runRequest replies rtt p d fuel (t + rtt i + p) (i + 1) (posts + 1)
          (waits + 1)) := by
  constructor
  · intro hrep hc htime
    simp only [runRequest, hrep]
    rw [if_neg (by omega), if_pos (by simpa using hc)]
  · intro hrep htime
    simp only [runRequest, hrep]
    rw [if_neg (by omega), if_neg (by simp), if_neg (by omega)]

/-- Witness for C2: the bridge answers code 1 on the first attempt, giving
`Other 1` after one POST and no wait; a bridge answering 101 hands over to
the next iteration after exactly one wait. -/
theorem request_error_code_dispatch_witness :
    runRequest (fun _ => .ok (.err ⟨1⟩)) (fun _ => 1) 2 5 6 0 0 0 0 =
        some ⟨.error (.authentication (.other 1)), 1, 0, 1⟩ ∧
      runRequest (fun _ => .ok (.err ⟨101⟩)) (fun _ => 1) 2 5 6 0 0 0 0 =
        runRequest (fun _ => .ok (.err ⟨101⟩)) (fun _ => 1) 2 5 5 3 1 1 1 := by
  constructor
  · exact (request_error_code_dispatch
      (fun _ => .ok (.err ⟨1⟩)) (fun _ => 1) 2 5 5 0 0 0 0 1).1
      rfl (by omega) (by decide)
  · exact (request_error_code_dispatch
      (fun _ => .ok (.err ⟨101⟩)) (fun _ => 1) 2 5 5 0 0 0 0 101).2
      rfl (by decide)

/-- C3: if every reply carries error code 101 (the pending state) and the
poll interval is positive, `request` returns `AuthenticationTimedOut`, and it
returns exactly at the deadline instant — never blocking past the deadline
plus one network round trip. The deadline is a single absolute instant fixed
at call time: the same `d` bounds every attempt, not a per-attempt relative
timeout. -/
theorem request_times_out_when_always_pending
    (bridge : Bridge) (deviceType : String)
    (replies : Nat → Except String Response) (rtt : Nat → Nat) (p d : Nat)
    (h101 : ∀ j, replies j = .ok (.err ⟨101⟩)) (hp : 1 ≤ p) :
    ∃ posts waits,
      (Authenticator.request bridge deviceType replies rtt p d
          (d + 1)).outcome =
        some ⟨.error (.authentication .timedOut), posts, waits, d⟩ := by
  have hd : d ≤ 0 + d * p := by
    have h1 : d * 1 ≤ d * p := Nat.mul_le_mul_left d hp
    simpa using h1
  obtain ⟨posts', waits', h⟩ :=
    runRequest_all101_timedOut replies rtt p d h101 hp d 0 0 0 0 hd
  exact ⟨posts', waits', h⟩

/-- Witness for C3: a bridge that always answers 101, unit round trips, poll
interval 2, deadline 5. -/
theorem request_times_out_when_always_pending_witness :
    ∃ posts waits,
      (Authenticator.request ⟨.domain "hue.local", "001788fffe23ab42", 443⟩
          "my_app" (fun _ => .ok (.err ⟨101⟩)) (fun _ => 1) 2 5 6).outcome =
        some ⟨.error (.authentication .timedOut), posts, waits, 5⟩ :=
  request_times_out_when_always_pending
    ⟨.domain "hue.local", "001788fffe23ab42", 443⟩ "my_app"
    (fun _ => .ok (.err ⟨101⟩)) (fun _ => 1) 2 5 (fun _ => rfl) (by omega)

/-- C4: transport failures are surfaced immediately and never retried by this
layer: a failed POST or body parse at any attempt ends `request` at once as
an `Http` error, with that one POST counted and no wait; a failed discovery
fetch aborts the whole `discover` call with the same transport error; and a
successful `discover` returns the full mapped set — the bridge of every
fetched record is in the result, never a silently truncated set. -/
theorem transport_errors_immediate :
    (∀ (replies : Nat → Except String Response) (rtt : Nat → Nat)
        (p d fuel t i posts waits : Nat) (e : String),
      replies i = .error e → t + rtt i ≤ d →
      runRequest replies rtt p d (fuel + 1) t i posts waits =
        some ⟨.error (.http e), posts + 1, waits, t + rtt i⟩) ∧
    (∀ e : String, Bridge.discover (.error e) = .error e) ∧
    (∀ (records : List DiscoveryRecord) (s : Finset Bridge),
      Bridge.discover (.ok records) = .ok s →
      ∀ r ∈ records, Bridge.fromRecord r ∈ s) := by
  refine ⟨?_, fun _ => rfl, ?_⟩
  · intro replies rtt p d fuel t i posts waits e hrep htime
    simp only [runRequest, hrep]
    rw [if_neg (by omega)]
  · intro records s hs r hr
    simp only [Bridge.discover, Except.ok.injEq] at hs
    subst hs
    simp only [List.mem_toFinset, List.mem_map]
    exact ⟨r, hr, rfl⟩

/-- Witness for C4: a first-attempt network failure ends the run as `Http`
after one POST; a failed fetch aborts `discover`; a fetched record's bridge
is in the discovered set. -/
theorem transport_errors_immediate_witness :
    runRequest (fun _ => .error "connection reset") (fun _ => 1) 2 5 6 0 0 0 0 =
        some ⟨.error (.http "connection reset"), 1, 0, 1⟩ ∧
      Bridge.discover (.error "dns failure") = .error "dns failure" ∧
      Bridge.fromRecord ⟨.domain "192-168-0-2.local", "abc", 443⟩ ∈
        (([⟨.domain "192-168-0-2.local", "abc", 443⟩] :
          List DiscoveryRecord).map Bridge.fromRecord).toFinset := by
  refine ⟨?_, transport_errors_immediate.2.1 "dns failure", ?_⟩
  · exact transport_errors_immediate.1
      (fun _ => .error "connection reset") (fun _ => 1) 2 5 5 0 0 0 0
      "connection reset" rfl (by decide)
  · exact transport_errors_immediate.2.2
      [⟨.domain "192-168-0-2.local", "abc", 443⟩] _ rfl _ (by simp)

/-- C5: when the deadline timer wins the race, the abandoned poll loop has no
observable effect on the returned result: a timed-out outcome is fully
determined by the replies to the POSTs actually issued before the deadline,
so any bridge behaviour agreeing on those attempts — whatever it would have
answered afterwards — yields the identical timed-out outcome. -/
theorem deadline_discards_pending_loop
    (r1 r2 : Nat → Except String Response) (rtt : Nat → Nat)
    (p d fuel : Nat) (o : RequestOutcome)
    (hrun : runRequest r1 rtt p d fuel 0 0 0 0 = some o)
    (_hres : o.result = .error (.authentication .timedOut))
    (hagree : ∀ j, j < o.posts → r2 j = r1 j) :
    runRequest r2 rtt p d fuel 0 0 0 0 = some o :=
  runRequest_frame rtt p d fuel r1 r2 0 0 0 0 o hrun
    (fun j _ hj => hagree j (by omega))

/-- Witness for C5: a run against an always-101 bridge times out after two
POSTs, and a bridge that would have answered success from the third attempt
on produces the identical timed-out outcome. -/
theorem deadline_discards_pending_loop_witness :
    runRequest
        (fun j => if j < 2 then .ok (.err ⟨101⟩) else .ok (.ok ⟨⟨"X"⟩, ⟨"Y"⟩⟩))
        (fun _ => 1) 1 2 5 0 0 0 0 =
      some ⟨.error (.authentication .timedOut), 2, 1, 2⟩ :=
  deadline_discards_pending_loop (fun _ => .ok (.err ⟨101⟩))
    (fun j => if j < 2 then .ok (.err ⟨101⟩) else .ok (.ok ⟨⟨"X"⟩, ⟨"Y"⟩⟩))
    (fun _ => 1) 1 2 5 ⟨.error (.authentication .timedOut), 2, 1, 2⟩
    rfl rfl
    (fun j hj => by
      have hj2 : j < 2 := hj
      simp [hj2])

/-- C6: response-body parsing. The error body
`[{"error":{"type":101,"address":A,"description":D}}]` parses to the pending
(error) variant — being an equation with the `err` constructor, never to
success; the success body `[{"success":{"username":U,"clientkey":K}}]` parses
to credentials that are exactly `U` and `K`; and anything that parses at all
was a single-element array wrapping one (singly tagged) object. -/
theorem response_body_parsing :
    (∀ addr desc : String,
      decodeResponseBody (.arr [.obj [("error", .obj [("type", .num 101),
          ("address", .str addr), ("description", .str desc)])]]) =
        some (.err ⟨101⟩)) ∧
    (∀ u k : String,
      decodeResponseBody (.arr [.obj [("success",
          .obj [("username", .str u), ("clientkey", .str k)])]]) =
        some (.ok ⟨⟨u⟩, ⟨k⟩⟩)) ∧
    (∀ (j : Json) (r : Response), decodeResponseBody j = some r →
      ∃ x, j = .arr [x] ∧ decodeResponse x = some r ∧
        ∃ tag payload, x = .obj [(tag, payload)]) := by
  refine ⟨fun addr desc => rfl, fun u k => rfl, ?_⟩
  intro j r h
  match j with
  | .null | .bool _ | .num _ | .str _ | .obj _ =>
    simp [decodeResponseBody] at h
  | .arr [] => simp [decodeResponseBody] at h
  | .arr (x :: y :: rest) => simp [decodeResponseBody] at h
  | .arr [x] =>
    refine ⟨x, rfl, h, ?_⟩
    match x with
    | .null | .bool _ | .num _ | .str _ | .arr _ =>
      simp [decodeResponseBody, decodeResponse] at h
    | .obj [] => simp [decodeResponseBody, decodeResponse] at h
    | .obj ((k1, v1) :: (k2, v2) :: rest) =>
      simp [decodeResponseBody, decodeResponse] at h
    | .obj [(tag, payload)] => exact ⟨tag, payload, rfl⟩

/-- Witness for C6: the test vectors of `authentication.rs` in miniature —
the pending body parses to `err 101`, the success body to the exact
credentials, and the success body is (per the third conjunct) a one-element
array wrapping one tagged object. -/
theorem response_body_parsing_witness :
    decodeResponseBody (.arr [.obj [("error", .obj [("type", .num 101),
        ("address", .str ""),
        ("description", .str "link button not pressed")])]]) =
      some (.err ⟨101⟩) ∧
    decodeResponseBody (.arr [.obj [("success",
        .obj [("username", .str "U"), ("clientkey", .str "K")])]]) =
      some (.ok ⟨⟨"U"⟩, ⟨"K"⟩⟩) ∧
    ∃ x, (Json.arr [Json.obj [("success",
        Json.obj [("username", Json.str "U"), ("clientkey", Json.str "K")])]]) =
        .arr [x] ∧ decodeResponse x = some (.ok ⟨⟨"U"⟩, ⟨"K"⟩⟩) ∧
      ∃ tag payload, x = .obj [(tag, payload)] :=
  ⟨response_body_parsing.1 "" "link button not pressed",
    response_body_parsing.2.1 "U" "K",
    response_body_parsing.2.2 _ _ rfl⟩

/-- C7: two bridge identities are equal exactly when host, id and port all
match, and `Bridge::discover` de-duplicates by this full equality: two
fetched records identical in all three fields collapse to exactly one bridge
in the result set, while two records sharing id and port but differing in
host both survive as distinct entries. -/
theorem bridge_equality_and_dedup :
    (∀ b1 b2 : Bridge,
      b1 = b2 ↔ b1.host = b2.host ∧ b1.id = b2.id ∧ b1.port = b2.port) ∧
    (∀ (r1 r2 : DiscoveryRecord) (s : Finset Bridge),
      r1.ip = r2.ip → r1.id = r2.id → r1.port = r2.port →
      Bridge.discover (.ok [r1, r2]) = .ok s → s.card = 1) ∧
    (∀ (r1 r2 : DiscoveryRecord) (s : Finset Bridge),
      r1.ip ≠ r2.ip → r1.id = r2.id → r1.port = r2.port →
      Bridge.discover (.ok [r1, r2]) = .ok s → s.card = 2) := by
  refine ⟨?_, ?_, ?_⟩
  · intro b1 b2
    constructor
    · rintro rfl
      exact ⟨rfl, rfl, rfl⟩
    · rintro ⟨h1, h2, h3⟩
      cases b1
      cases b2
      simp_all
  · intro r1 r2 s hip hid hport hs
    obtain rfl : r2 = r1 := by
      cases r1
      cases r2
      simp_all
    simp only [Bridge.discover, Except.ok.injEq] at hs
    subst hs
    simp
  · intro r1 r2 s hip hid hport hs
    simp only [Bridge.discover, Except.ok.injEq] at hs
    subst hs
    have hne : Bridge.fromRecord r1 ≠ Bridge.fromRecord r2 := by
      intro h
      exact hip (congrArg Bridge.host h)
    rw [show ([r1, r2].map Bridge.fromRecord).toFinset =
        insert (Bridge.fromRecord r1) {Bridge.fromRecord r2} by simp]
    rw [Finset.card_insert_of_not_mem (by simp [hne])]
    simp

/-- Witness for C7: concrete identities differing only in host are unequal;
duplicate records collapse to one; records differing only in host stay two. -/
theorem bridge_equality_and_dedup_witness :
    (((⟨.domain "a.local", "id1", 443⟩ : Bridge) =
        ⟨.domain "b.local", "id1", 443⟩) ↔
      (Host.domain "a.local" = .domain "b.local" ∧
        "id1" = "id1" ∧ (443 : Nat) = 443)) ∧
    ((([⟨.domain "a.local", "id1", 443⟩, ⟨.domain "a.local", "id1", 443⟩] :
        List DiscoveryRecord).map Bridge.fromRecord).toFinset.card = 1) ∧
    ((([⟨.domain "a.local", "id1", 443⟩, ⟨.domain "b.local", "id1", 443⟩] :
        List DiscoveryRecord).map Bridge.fromRecord).toFinset.card = 2) := by
  refine ⟨bridge_equality_and_dedup.1 _ _, ?_, ?_⟩
  · exact bridge_equality_and_dedup.2.1 ⟨.domain "a.local", "id1", 443⟩
      ⟨.domain "a.local", "id1", 443⟩ _ rfl rfl rfl rfl
  · exact bridge_equality_and_dedup.2.2 ⟨.domain "a.local", "id1", 443⟩
      ⟨.domain "b.local", "id1", 443⟩ _ (by decide) rfl rfl rfl

/-- C8: round trip through `From<discover_remote::Response> for Bridge`: the
bridge constructed from a discovery record answers the record's three fields
unchanged through its `host()`, `id()` and `port()` accessors; no
normalisation or mutation happens after construction. -/
theorem bridge_roundtrip_accessors (r : DiscoveryRecord) :
    (Bridge.fromRecord r).host = r.ip ∧ (Bridge.fromRecord r).id = r.id ∧
      (Bridge.fromRecord r).port = r.port :=
  ⟨rfl, rfl, rfl⟩

/-- C9: the credential secrets are held in a redaction-aware wrapper: the
debug rendering of an `Authenticator` is one and the same string for every
pair of credentials, so it cannot reveal the secret values; equality of
secrets remains available for programmatic use through explicit exposure. -/
theorem secret_redaction_and_equality :
    (∀ a1 a2 : Authenticator, a1.debugFormat = a2.debugFormat) ∧
    (∀ s1 s2 : SecretString, s1 = s2 ↔ s1.exposeSecret = s2.exposeSecret) := by
  refine ⟨fun a1 a2 => rfl, fun s1 s2 => ?_⟩
  constructor
  · rintro rfl
    rfl
  · intro h
    cases s1
    cases s2
    simpa using h

/-- C10: `Authenticator::request` reads the bridge identity only through its
host: for two bridges with equal host, whatever their id and port, the whole
call — URL `https://{host}/api`, payload, and outcome of the race — is
identical for every device type, bridge behaviour, timing, poll interval,
deadline and fuel. -/
theorem request_depends_only_on_host
    (b1 b2 : Bridge) (deviceType : String)
    (replies : Nat → Except String Response) (rtt : Nat → Nat)
    (p d fuel : Nat) (hhost : b1.host = b2.host) :
    Authenticator.request b1 deviceType replies rtt p d fuel =
      Authenticator.request b2 deviceType replies rtt p d fuel := by
  simp only [Authenticator.request, requestUrl, hhost]

/-- Witness for C10: two bridges sharing a host but with different ids and
ports make the identical request. -/
theorem request_depends_only_on_host_witness :
    Authenticator.request ⟨.domain "hue.local", "id-a", 443⟩ "my_app"
        (fun _ => .ok (.err ⟨101⟩)) (fun _ => 1) 1 3 9 =
      Authenticator.request ⟨.domain "hue.local", "id-b", 8080⟩ "my_app"
        (fun _ => .ok (.err ⟨101⟩)) (fun _ => 1) 1 3 9 :=
  request_depends_only_on_host ⟨.domain "hue.local", "id-a", 443⟩
    ⟨.domain "hue.local", "id-b", 8080⟩ "my_app"
    (fun _ => .ok (.err ⟨101⟩)) (fun _ => 1) 1 3 9 rfl

end Huer
